import Mathlib

/-!
Verification of the projector bundle (tool-projector / hooks-projector).

This file shallowly embeds the Python sources:
  - `amplifier_module_tool_projector/tool.py`
  - `amplifier_module_hooks_projector/hook.py`
YAML values are modelled by the inductive `YVal`; parsed YAML mappings by
association lists (`Dict`); files on disk by `FileContent`; the tool's state
directory by `FS`.  External effects (the git subprocess, path resolution,
the clock) are passed in as parameters.
-/

namespace Projector

/-- A parsed YAML / JSON value, as `yaml.safe_load` / `json.loads` produce. -/
inductive YVal where
  | null
  | bool (b : Bool)
  | str (s : String)
  | num (n : Int)
  | list (l : List YVal)
  | dict (d : List (String × YVal))

/-- A parsed mapping (Python `dict`), keys in insertion order. -/
abbrev Dict := List (String × YVal)

/-- Python truthiness (`bool(v)`) for the modelled YAML values. -/
def truthy : YVal → Bool
  | .null => false
  | .bool b => b
  | .str s => !s.data.isEmpty
  | .num n => n != 0
  | .list l => !l.isEmpty
  | .dict d => !d.isEmpty

/-- First value bound to a key (Python `dict` lookup; parsed dicts have unique keys). -/
def getVal : Dict → String → Option YVal
  | [], _ => none
  | (k, v) :: rest, key => if k = key then some v else getVal rest key

/-- Python `d.get(k)` (missing key yields `None`). -/
def pyGet (d : Dict) (k : String) : YVal := (getVal d k).getD .null

/-- Python `d.get(k, dflt)`. -/
def pyGetD (d : Dict) (k : String) (dflt : YVal) : YVal := (getVal d k).getD dflt

/-- Python `d[k] = v`: replace the binding in place (keys are unique in a
parsed mapping), or append a new one at the end. -/
def setKey : Dict → String → YVal → Dict
  | [], k, v => [(k, v)]
  | (k1, v1) :: rest, k, v =>
    if k1 = k then (k, v) :: rest else (k1, v1) :: setKey rest k v

/-! ### String utilities mirroring the Python operations used by the sources -/

/-- Bool-valued list prefix test (used to model Python substring search). -/
def listStarts : List Char → List Char → Bool
  | [], _ => true
  | _ :: _, [] => false
  | a :: as, b :: bs => a == b && listStarts as bs

/-- Bool-valued substring occurrence on character lists (Python `pat in hay`). -/
def occursIn (pat : List Char) : List Char → Bool
  | [] => listStarts pat []
  | c :: t => listStarts pat (c :: t) || occursIn pat t

/-- Python `pat in hay` on strings. -/
def strContains (hay pat : String) : Bool := occursIn pat.data hay.data

/-- Strip leading and trailing whitespace from a character list. -/
def stripList (l : List Char) : List Char :=
  ((l.dropWhile Char.isWhitespace).reverse.dropWhile Char.isWhitespace).reverse

/-- Python `s.strip()`. -/
def pyStrip (s : String) : String := String.mk (stripList s.data)

/-- Python `s.rstrip(";")`-style: drop trailing characters satisfying `p`. -/
def dropEndWhile (p : Char → Bool) (s : String) : String :=
  String.mk ((s.data.reverse.dropWhile p).reverse)

/-- Python `f"{n:03d}"` for a natural number. -/
def pad3 (n : Nat) : String :=
  String.mk (List.replicate (3 - (toString n).length) '0') ++ toString n

/-! ### Lemmas about the string utilities -/

theorem listStarts_iff (p l : List Char) : listStarts p l = true ↔ p <+: l := by
  induction p generalizing l with
  | nil => simp [listStarts]
  | cons a as ih =>
    cases l with
    | nil => simp [listStarts]
    | cons b bs =>
      simp only [listStarts, Bool.and_eq_true, beq_iff_eq, List.cons_prefix_cons, ih]

theorem occursIn_iff (p l : List Char) : occursIn p l = true ↔ p <:+: l := by
  induction l with
  | nil =>
    cases p with
    | nil => simp [occursIn, listStarts]
    | cons c t => simp [occursIn, listStarts]
  | cons c t ih =>
    simp only [occursIn, Bool.or_eq_true, listStarts_iff, ih, List.infix_cons_iff]

theorem infix_dropWhile_of_not (p l : List Char) (q : Char → Bool)
    (hne : p ≠ []) (hq : ∀ c ∈ p, q c = false) (h : p <:+: l) :
    p <:+: l.dropWhile q := by
  induction l with
  | nil =>
    rw [List.infix_nil] at h
    exact absurd h hne
  | cons c t ih =>
    by_cases hqc : q c = true
    · rw [List.dropWhile_cons, if_pos hqc]
      rcases List.infix_cons_iff.mp h with hpre | hinf
      · cases p with
        | nil => exact absurd rfl hne
        | cons a as =>
          rcases List.cons_prefix_cons.mp hpre with ⟨rfl, _⟩
          have := hq a (List.mem_cons_self a as)
          rw [this] at hqc
          exact absurd hqc (by simp)
      · exact ih hinf
    · rw [List.dropWhile_cons, if_neg hqc]
      exact h

theorem infix_reverse_of {p l : List Char} (h : p <:+: l) :
    p.reverse <:+: l.reverse := by
  obtain ⟨s, t, rfl⟩ := h
  exact ⟨t.reverse, s.reverse, by simp⟩

theorem infix_stripList (p l : List Char)
    (hne : p ≠ []) (hq : ∀ c ∈ p, c.isWhitespace = false) (h : p <:+: l) :
    p <:+: stripList l := by
  have h1 : p <:+: l.dropWhile Char.isWhitespace :=
    infix_dropWhile_of_not p l Char.isWhitespace hne hq h
  have h2 : p.reverse <:+: (l.dropWhile Char.isWhitespace).reverse :=
    infix_reverse_of h1
  have hne' : p.reverse ≠ [] := by
    intro hc
    exact hne (by simpa using congrArg List.reverse hc)
  have hq' : ∀ c ∈ p.reverse, c.isWhitespace = false := by
    intro c hc
    exact hq c (List.mem_reverse.mp hc)
  have h3 := infix_dropWhile_of_not p.reverse _ Char.isWhitespace hne' hq' h2
  have h4 := infix_reverse_of h3
  simpa [stripList] using h4

/-! ### Files on disk and the two structured-read operations

`tool.py::_read_yaml` propagates YAML parse exceptions and applies `or {}` to
the parsed value; `hook.py::ProjectorHook._read_yaml` swallows every error and
insists on a mapping. -/

/-- Content of one file path: missing, unparsable, or parsed to a value. -/
inductive FileContent where
  | absent
  | malformed
  | wellFormed (v : YVal)

/-- Python exceptions that cross a handler boundary in `tool.py`. -/
inductive PyExn where
  | valueError (msg : String)
  | other (msg : String)
deriving DecidableEq

instance exceptDecEq {ε α : Type} [DecidableEq ε] [DecidableEq α] :
    DecidableEq (Except ε α) := fun x y =>
  match x, y with
  | .ok a, .ok b =>
    if h : a = b then isTrue (by rw [h])
    else isFalse (by intro hc; injection hc; contradiction)
  | .error a, .error b =>
    if h : a = b then isTrue (by rw [h])
    else isFalse (by intro hc; injection hc; contradiction)
  | .ok _, .error _ => isFalse (by intro hc; exact Except.noConfusion hc)
  | .error _, .ok _ => isFalse (by intro hc; exact Except.noConfusion hc)

/-- tool.py `_read_yaml`: `{}` if the file is missing, `yaml.safe_load(text) or {}`
otherwise; a parse failure escapes as an exception. -/
def tool_read_yaml : FileContent → Except PyExn YVal
  | .absent => .ok (.dict [])
  | .malformed => .error (.other "yaml parse error")
  | .wellFormed v => .ok (if truthy v then v else .dict [])

/-- hook.py `ProjectorHook._read_yaml`: any error or non-mapping value gives `{}`. -/
def hook_read_yaml : FileContent → Dict
  | .wellFormed (.dict d) => d
  | _ => []

/-- Whether a value is a mapping at top level. -/
def isDictVal : YVal → Bool
  | .dict _ => true
  | _ => false

/-- Python attribute access `v.get`/`v[k] =` on a parsed value: raises unless a dict. -/
def asDict : YVal → Except PyExn Dict
  | .dict d => .ok d
  | _ => .error (.other "value is not a mapping")

/-! ### tool.py `_safe_name` (sanitization / slugification) -/

/-- Characters the slug keeps: `[a-z0-9]`. -/
def isSlugChar (c : Char) : Bool := ('a' ≤ c && c ≤ 'z') || ('0' ≤ c && c ≤ '9')

/-- `re.sub(r"[^a-z0-9]+", "-", s)`: each maximal run of non-slug characters
becomes a single hyphen.  The flag records whether we are inside such a run. -/
def slugAux : Bool → List Char → List Char
  | _, [] => []
  | skipping, c :: cs =>
    if isSlugChar c then c :: slugAux false cs
    else if skipping then slugAux true cs
    else '-' :: slugAux true cs

/-- Slugification: lowercase, collapse non-alphanumeric runs to `-`, strip `-`. -/
def slugify (s : String) : String :=
  let collapsed := slugAux false (s.data.map Char.toLower)
  String.mk (((collapsed.dropWhile (fun c => c == '-')).reverse.dropWhile
    (fun c => c == '-')).reverse)

/-- tool.py `_safe_name`: reject empty/whitespace-only names and names containing
`..`, `/` or `\`; otherwise slugify (rejecting an empty slug).  Raised
`ValueError`s are modelled as `.error (.valueError _)`. -/
def safe_name (name : String) : Except PyExn String :=
  if pyStrip name = "" then .error (.valueError "Name must not be empty")
  else if strContains (pyStrip name) ".." || strContains (pyStrip name) "/"
      || strContains (pyStrip name) "\\" then
    .error (.valueError ("Invalid name (path traversal rejected): " ++ pyStrip name))
  else if slugify (pyStrip name) = "" then
    .error (.valueError ("Name produces empty slug: " ++ pyStrip name))
  else .ok (slugify (pyStrip name))

/-! ### tool.py task-ID generation -/

/-- Python `s.split(sep)` for a single-character separator, on character lists. -/
def splitChar (sep : Char) : List Char → List (List Char)
  | [] => [[]]
  | c :: cs =>
    match splitChar sep cs with
    | [] => if c == sep then [[], []] else [[c]]
    | h :: t => if c == sep then [] :: h :: t else (c :: h) :: t

/-- tool.py `_project_prefix`: initials of a multi-segment slug, else first
three characters; uppercased. -/
def project_prefix (project_name : String) : String :=
  let parts := splitChar '-' project_name.data
  if 2 ≤ parts.length then
    String.mk (((parts.filter (fun p => !p.isEmpty)).map
      (fun p => p.headD ' ')).map Char.toUpper)
  else String.mk ((project_name.data.take 3).map Char.toUpper)

/-- ASCII decimal digit test, as `\d` matches in the generated ids. -/
def isDigitChar (c : Char) : Bool := '0' ≤ c && c ≤ '9'

/-- Value of a digit string (most significant first). -/
def digitsVal (acc : Nat) : List Char → Nat
  | [] => acc
  | c :: cs => digitsVal (acc * 10 + (c.toNat - '0'.toNat)) cs

/-- The regex `^PREFIX-(\d+)$` applied to an id: the numeric tail, if the id is
the prefix, a hyphen, and a non-empty digit string. -/
def parseIdNum (pfx : String) (id : String) : Option Nat :=
  if listStarts (pfx.data ++ ['-']) id.data then
    let rest := id.data.drop (pfx.data.length + 1)
    if !rest.isEmpty && rest.all isDigitChar then some (digitsVal 0 rest)
    else none
  else none

/-- The string under an `id` key, `""` when absent (Python `t.get("id", "")`). -/
def idStrOf (t : Dict) : String :=
  match getVal t "id" with
  | some (.str s) => s
  | _ => ""

/-- tool.py `_next_task_id`: the running maximum over ids matching the prefix
pattern, then `PREFIX-` plus the successor, zero-padded to three digits. -/
def next_task_id (tasks : List Dict) (pfx : String) : String :=
  let maxNum := tasks.foldl
    (fun m t =>
      match parseIdNum pfx (idStrOf t) with
      | some n => max m n
      | none => m) 0
  pfx ++ "-" ++ pad3 (maxNum + 1)

/-- The maximum sequence number among ids matching the prefix (0 if none). -/
def maxSeq (tasks : List Dict) (pfx : String) : Nat :=
  (tasks.filterMap (fun t => parseIdNum pfx (idStrOf t))).foldr max 0

/-! ### The tool's state directory and operation results -/

/-- One project directory `projects/<slug>/`: `project.yaml`, `tasks.yaml`,
and the parsed records of `outcomes.jsonl`. -/
structure DirContent where
  projectFile : FileContent
  tasksFile : FileContent
  outcomes : List Dict

/-- The base directory: `strategies/<stem>.yaml` files (in sorted listing
order) and `projects/<slug>/` directories (in sorted listing order). -/
structure FS where
  strategies : List (String × FileContent)
  projects : List (String × DirContent)

/-- The `{ok, result | error}` JSON envelope a handler returns on success. -/
inductive Env where
  | ok (v : YVal)
  | err (msg : String)

/-- The `ToolResult` the dispatcher returns: `success=True` with the envelope,
or `success=False` with an error message. -/
inductive ToolOut where
  | success (e : Env)
  | failure (msg : String)

/-- `ProjectorTool.execute`'s exception handling: a `ValueError` becomes its own
message, any other exception an "Unexpected error in <op>" message. -/
def toFailure (opName : String) : PyExn → ToolOut
  | .valueError m => .failure m
  | .other m => .failure ("Unexpected error in " ++ opName ++ ": " ++ m)

/-- Reading `projects/<slug>/`; a directory that does not exist behaves as one
whose files are all absent. -/
def getProjDir (fs : FS) (slug : String) : DirContent :=
  match fs.projects.find? (fun p => p.1 == slug) with
  | some p => p.2
  | none => ⟨.absent, .absent, []⟩

/-- `path.exists()` for a modelled file. -/
def fileExists : FileContent → Bool
  | .absent => false
  | _ => true

/-- Replace (or create) the directory entry for `slug`. -/
def setProjDir (fs : FS) (slug : String) (dc : DirContent) : FS :=
  if fs.projects.any (fun p => p.1 == slug) then
    ⟨fs.strategies, fs.projects.map (fun p => if p.1 == slug then (slug, dc) else p)⟩
  else ⟨fs.strategies, fs.projects ++ [(slug, dc)]⟩

/-- `_write_yaml` of `project.yaml` for a project. -/
def writeProjectFile (fs : FS) (slug : String) (d : Dict) : FS :=
  setProjDir fs slug
    ⟨.wellFormed (.dict d), (getProjDir fs slug).tasksFile, (getProjDir fs slug).outcomes⟩

/-- `_write_tasks`: write `{tasks: [...]}` to `tasks.yaml`. -/
def writeTasksFile (fs : FS) (slug : String) (tasks : List Dict) : FS :=
  setProjDir fs slug
    ⟨(getProjDir fs slug).projectFile,
     .wellFormed (.dict [("tasks", .list (tasks.map YVal.dict))]),
     (getProjDir fs slug).outcomes⟩

/-- Append one record to `outcomes.jsonl`. -/
def appendOutcome (fs : FS) (slug : String) (rec : Dict) : FS :=
  setProjDir fs slug
    ⟨(getProjDir fs slug).projectFile, (getProjDir fs slug).tasksFile,
     (getProjDir fs slug).outcomes ++ [rec]⟩

/-- Iterating `data.get("tasks", [])`: each element must behave as a mapping. -/
def allDicts : List YVal → Except PyExn (List Dict)
  | [] => .ok []
  | v :: vs =>
    match asDict v with
    | .error e => .error e
    | .ok d =>
      match allDicts vs with
      | .error e => .error e
      | .ok ds => .ok (d :: ds)

/-- The task sequence under the `tasks` key of a parsed `tasks.yaml`. -/
def asTaskList : YVal → Except PyExn (List Dict)
  | .list l => allDicts l
  | _ => .error (.other "tasks is not a list")

/-- `_read_tasks`: parse `tasks.yaml` and extract its `tasks` list. -/
def readTasks (fs : FS) (slug : String) : Except PyExn (List Dict) :=
  match tool_read_yaml (getProjDir fs slug).tasksFile with
  | .error e => .error e
  | .ok v =>
    match asDict v with
    | .error e => .error e
    | .ok td => asTaskList (pyGetD td "tasks" (.list []))

/-- `for k, v in data.items(): if k not in task: task[k] = v`. -/
def mergeExtras (base : Dict) (data : Dict) : Dict :=
  data.foldl (fun acc kv => if acc.any (fun p => p.1 == kv.1) then acc else acc ++ [kv]) base

/-! ### tool.py operation handlers (each starts with `_safe_name`) -/

/-- `_op_get_project` (reads only, so it returns no new state). -/
def op_get_project (fs : FS) (arg : String) : ToolOut :=
  match safe_name arg with
  | .error e => toFailure "get_project" e
  | .ok name =>
    if fileExists (getProjDir fs name).projectFile = false then
      .success (.err ("Project not found: " ++ name))
    else
      match tool_read_yaml (getProjDir fs name).projectFile with
      | .error e => toFailure "get_project" e
      | .ok project =>
        match tool_read_yaml (getProjDir fs name).tasksFile with
        | .error e => toFailure "get_project" e
        | .ok tv =>
          match asDict tv with
          | .error e => toFailure "get_project" e
          | .ok td =>
            let recent := (getProjDir fs name).outcomes
            .success (.ok (.dict
              [("project", project),
               ("recent_outcomes",
                 .list ((recent.drop (recent.length - 20)).map YVal.dict)),
               ("tasks", pyGetD td "tasks" (.list []))]))

/-- The fresh `project.yaml` mapping `_op_create_project` builds. -/
def newProjectDict (name : String) (data : Dict) (now : String) : Dict :=
  mergeExtras
    [("name", .str name),
     ("title", pyGetD data "title" (.str name)),
     ("status", pyGetD data "status" (.str "active")),
     ("description", pyGetD data "description" (.str "")),
     ("relationships", pyGetD data "relationships" (.list [])),
     ("notes", pyGetD data "notes" (.str "")),
     ("created", .str now),
     ("updated", .str now)] data

/-- `_op_create_project`. -/
def op_create_project (fs : FS) (arg : String) (data : Dict) (now : String) :
    ToolOut × FS :=
  match safe_name arg with
  | .error e => (toFailure "create_project" e, fs)
  | .ok name =>
    if fileExists (getProjDir fs name).projectFile then
      (.success (.err ("Project already exists: " ++ name)), fs)
    else
      let project := newProjectDict name data now
      (.success (.ok (.dict [("created", .str name), ("project", .dict project)])),
       writeProjectFile fs name project)

/-- The update loop of `_op_update_project` / `_op_update_task`: apply every
non-protected key of `data`. -/
def applyUpdates (prot : String → Bool) (orig : Dict) (data : Dict) : Dict :=
  data.foldl (fun acc kv => if prot kv.1 then acc else setKey acc kv.1 kv.2) orig

/-- `_op_update_project`'s mapping transformation (protects `name`, `created`;
stamps `updated`). -/
def update_project_fields (project data : Dict) (now : String) : Dict :=
  setKey (applyUpdates (fun k => k == "name" || k == "created") project data)
    "updated" (.str now)

/-- `_op_update_task`'s mapping transformation (protects `id`, `created`;
stamps `updated`). -/
def update_task_fields (task data : Dict) (now : String) : Dict :=
  setKey (applyUpdates (fun k => k == "id" || k == "created") task data)
    "updated" (.str now)

/-- `_op_update_project`. -/
def op_update_project (fs : FS) (arg : String) (data : Dict) (now : String) :
    ToolOut × FS :=
  match safe_name arg with
  | .error e => (toFailure "update_project" e, fs)
  | .ok name =>
    if data.isEmpty then (.success (.err "No data provided for update"), fs)
    else if fileExists (getProjDir fs name).projectFile = false then
      (.success (.err ("Project not found: " ++ name)), fs)
    else
      match tool_read_yaml (getProjDir fs name).projectFile with
      | .error e => (toFailure "update_project" e, fs)
      | .ok v =>
        match asDict v with
        | .error e => (toFailure "update_project" e, fs)
        | .ok project =>
          let project' := update_project_fields project data now
          (.success (.ok (.dict [("updated", .str name), ("project", .dict project')])),
           writeProjectFile fs name project')

/-- One row of `_op_list_strategies`' output. -/
def strategyEntry (stem : String) (d : Dict) : Dict :=
  [("name", .str stem),
   ("title", pyGetD d "title" (.str stem)),
   ("active", pyGetD d "active" (.bool true)),
   ("updated", pyGetD d "updated" (.str ""))]

/-- The sequential body of `_op_list_strategies` over the sorted listing. -/
def strategyEntries : List (String × FileContent) → Except PyExn (List YVal)
  | [] => .ok []
  | sf :: rest =>
    match tool_read_yaml sf.2 with
    | .error e => .error e
    | .ok v =>
      match asDict v with
      | .error e => .error e
      | .ok d =>
        match strategyEntries rest with
        | .error e => .error e
        | .ok es => .ok (.dict (strategyEntry sf.1 d) :: es)

/-- `_op_list_strategies` (takes no name; reads only). -/
def op_list_strategies (fs : FS) : ToolOut :=
  match strategyEntries fs.strategies with
  | .error e => toFailure "list_strategies" e
  | .ok es => .success (.ok (.list es))

/-- `_op_get_strategy` (reads only). -/
def op_get_strategy (fs : FS) (arg : String) : ToolOut :=
  match safe_name arg with
  | .error e => toFailure "get_strategy" e
  | .ok name =>
    match fs.strategies.find? (fun p => p.1 == name) with
    | none => .success (.err ("Strategy not found: " ++ name))
    | some sf =>
      match tool_read_yaml sf.2 with
      | .error e => toFailure "get_strategy" e
      | .ok v => .success (.ok v)

/-- Replace (or create) the strategy file for `name`. -/
def setStrategyFile (fs : FS) (name : String) (d : Dict) : FS :=
  if fs.strategies.any (fun p => p.1 == name) then
    ⟨fs.strategies.map (fun p => if p.1 == name then (name, .wellFormed (.dict d)) else p),
     fs.projects⟩
  else ⟨fs.strategies ++ [(name, .wellFormed (.dict d))], fs.projects⟩

/-- The strategy mapping `_op_set_strategy` builds from `data` and the
previous file content. -/
def newStrategyDict (name : String) (data existing : Dict) (now : String) : Dict :=
  mergeExtras
    (setKey
      [("name", .str name),
       ("title", pyGetD data "title" (pyGetD existing "title" (.str name))),
       ("active", pyGetD data "active" (pyGetD existing "active" (.bool true))),
       ("description", pyGetD data "description" (pyGetD existing "description" (.str ""))),
       ("guidelines", pyGetD data "guidelines" (pyGetD existing "guidelines" (.list []))),
       ("updated", .str now)]
      "created"
      (if existing.isEmpty then .str now else pyGetD existing "created" (.str now)))
    data

/-- `_op_set_strategy`. -/
def op_set_strategy (fs : FS) (arg : String) (data : Dict) (now : String) :
    ToolOut × FS :=
  match safe_name arg with
  | .error e => (toFailure "set_strategy" e, fs)
  | .ok name =>
    if data.isEmpty then (.success (.err "No data provided for strategy"), fs)
    else
      match
        ((match fs.strategies.find? (fun p => p.1 == name) with
          | some sf =>
            (match tool_read_yaml sf.2 with
             | .error e => .error e
             | .ok v => asDict v)
          | none => .ok []) : Except PyExn Dict) with
      | .error e => (toFailure "set_strategy" e, fs)
      | .ok existing =>
        let strategy := newStrategyDict name data existing now
        (.success (.ok (.dict
          [("action", .str (if existing.isEmpty then "created" else "updated")),
           ("strategy", .dict strategy)])),
         setStrategyFile fs name strategy)

/-- `_op_toggle_strategy`. -/
def op_toggle_strategy (fs : FS) (arg : String) (now : String) : ToolOut × FS :=
  match safe_name arg with
  | .error e => (toFailure "toggle_strategy" e, fs)
  | .ok name =>
    match fs.strategies.find? (fun p => p.1 == name) with
    | none => (.success (.err ("Strategy not found: " ++ name)), fs)
    | some sf =>
      match tool_read_yaml sf.2 with
      | .error e => (toFailure "toggle_strategy" e, fs)
      | .ok v =>
        match asDict v with
        | .error e => (toFailure "toggle_strategy" e, fs)
        | .ok strategy =>
          let wasActive := truthy (pyGetD strategy "active" (.bool true))
          let strategy' :=
            setKey (setKey strategy "active" (.bool (!wasActive))) "updated" (.str now)
          (.success (.ok (.dict
            [("name", .str name), ("active", .bool (!wasActive)),
             ("changed_from", .bool wasActive)])),
           setStrategyFile fs name strategy')

/-- The task mapping `_op_add_task` builds. -/
def buildTask (task_id : String) (data : Dict) (now : String) : Dict :=
  mergeExtras
    [("id", .str task_id),
     ("title", pyGetD data "title" .null),
     ("status", pyGetD data "status" (.str "todo")),
     ("priority", pyGetD data "priority" (.str "normal")),
     ("notes", pyGetD data "notes" (.str "")),
     ("created", .str now),
     ("updated", .str now)] data

/-- `_op_add_task`. -/
def op_add_task (fs : FS) (arg : String) (data : Dict) (now : String) :
    ToolOut × FS :=
  match safe_name arg with
  | .error e => (toFailure "add_task" e, fs)
  | .ok name =>
    if fileExists (getProjDir fs name).projectFile = false then
      (.success (.err ("Project not found: " ++ name)), fs)
    else if truthy (pyGetD data "title" .null) = false then
      (.success (.err "Task requires a 'title' in data"), fs)
    else
      match readTasks fs name with
      | .error e => (toFailure "add_task" e, fs)
      | .ok tasks =>
        let task := buildTask (next_task_id tasks ( project_prefix name)) data now
        (.success (.ok (.dict [("added", .dict task)])),
         writeTasksFile fs name (tasks ++ [task]))

/-- The in-place mutation of the first task whose id matches (ids are compared
as the strings the tool itself generates). -/
def replaceFirst (p : Dict → Bool) (f : Dict → Dict) : List Dict → List Dict
  | [] => []
  | t :: ts => if p t then f t :: ts else t :: replaceFirst p f ts

/-- Whether a task's `id` equals the requested id value. -/
def idMatches (idv : YVal) (t : Dict) : Bool :=
  match pyGet t "id", idv with
  | .str a, .str b => a == b
  | _, _ => false

/-- `_op_update_task`. -/
def op_update_task (fs : FS) (arg : String) (data : Dict) (now : String) :
    ToolOut × FS :=
  match safe_name arg with
  | .error e => (toFailure "update_task" e, fs)
  | .ok name =>
    if truthy (pyGetD data "id" (.str "")) = false then
      (.success (.err "Task update requires 'id' in data"), fs)
    else if fileExists (getProjDir fs name).projectFile = false then
      (.success (.err ("Project not found: " ++ name)), fs)
    else
      match readTasks fs name with
      | .error e => (toFailure "update_task" e, fs)
      | .ok tasks =>
        match tasks.find? (idMatches (pyGetD data "id" (.str ""))) with
        | none => (.success (.err "Task not found"), fs)
        | some target =>
          let target' := update_task_fields target data now
          (.success (.ok (.dict [("updated", .dict target')])),
           writeTasksFile fs name
             (replaceFirst (idMatches (pyGetD data "id" (.str "")))
               (fun t => update_task_fields t data now) tasks))

/-- The `q in status or q in title` filter of `_op_list_tasks` (on the lowered
strings; non-string fields behave as absent). -/
def taskMatchesQuery (q : String) (t : Dict) : Bool :=
  let status := match getVal t "status" with | some (.str s) => s | _ => ""
  let title := match getVal t "title" with | some (.str s) => s | _ => ""
  strContains (String.mk (status.data.map Char.toLower)) q
    || strContains (String.mk (title.data.map Char.toLower)) q

/-- The final filter-and-wrap step of `_op_list_tasks`. -/
def listTasksFinish (query : String) (allTasks : List Dict) : ToolOut :=
  let filtered :=
    if query = "" then allTasks
    else allTasks.filter (taskMatchesQuery (String.mk (query.data.map Char.toLower)))
  .success (.ok (.list (filtered.map YVal.dict)))

/-- The all-projects walk of `_op_list_tasks`: tasks of every directory that has
a `project.yaml`, each tagged with its project name. -/
def collectAllTasks (fs : FS) : List (String × DirContent) → Except PyExn (List Dict)
  | [] => .ok []
  | pd :: rest =>
    if fileExists pd.2.projectFile = false then collectAllTasks fs rest
    else
      match readTasks fs pd.1 with
      | .error e => .error e
      | .ok tasks =>
        match collectAllTasks fs rest with
        | .error e => .error e
        | .ok more => .ok ((tasks.map (fun t => setKey t "project" (.str pd.1))) ++ more)

/-- `_op_list_tasks` (reads only).  An empty (or missing) project argument is
falsy in Python, so it means "all projects" and is never sanitized. -/
def op_list_tasks (fs : FS) (projectArg : String) (query : String) : ToolOut :=
  if projectArg = "" then
    match collectAllTasks fs fs.projects with
    | .error e => toFailure "list_tasks" e
    | .ok allTasks => listTasksFinish query allTasks
  else
    match safe_name projectArg with
    | .error e => toFailure "list_tasks" e
    | .ok name =>
      if fileExists (getProjDir fs name).projectFile = false then
        .success (.err ("Project not found: " ++ name))
      else
        match readTasks fs name with
        | .error e => toFailure "list_tasks" e
        | .ok tasks =>
          listTasksFinish query (tasks.map (fun t => setKey t "project" (.str name)))

/-- `_op_log_outcome`. -/
def op_log_outcome (fs : FS) (arg : String) (data : Dict) (now : String) :
    ToolOut × FS :=
  match safe_name arg with
  | .error e => (toFailure "log_outcome" e, fs)
  | .ok name =>
    if fileExists (getProjDir fs name).projectFile = false then
      (.success (.err ("Project not found: " ++ name)), fs)
    else if truthy (pyGetD data "summary" .null) = false then
      (.success (.err "Outcome requires a 'summary' in data"), fs)
    else
      let outcome : Dict :=
        [("timestamp", .str now),
         ("summary", pyGetD data "summary" .null),
         ("tags", pyGetD data "tags" (.list [])),
         ("session_id", pyGetD data "session_id" (.str "")),
         ("details", pyGetD data "details" (.str ""))]
      (.success (.ok (.dict [("logged", .dict outcome)])), appendOutcome fs name outcome)

/-- The strategy tallies of `_op_get_status` (active count, inactive count). -/
def status_strategy_counts : List (String × FileContent) → Except PyExn (Nat × Nat)
  | [] => .ok (0, 0)
  | sf :: rest =>
    match tool_read_yaml sf.2 with
    | .error e => .error e
    | .ok v =>
      match asDict v with
      | .error e => .error e
      | .ok d =>
        match status_strategy_counts rest with
        | .error e => .error e
        | .ok acc =>
          .ok (if truthy (pyGetD d "active" (.bool true)) then (acc.1 + 1, acc.2)
               else (acc.1, acc.2 + 1))

/-! ### hook.py: strategy loading, project detection, outcomes, context -/

/-- `ProjectorHook._load_active_strategies` over the sorted `*.yaml` listing:
keep the parsed mappings whose `active` and `injection` values are truthy
(`data.get("active") and data.get("injection")`). -/
def load_active_strategies : List FileContent → List Dict
  | [] => []
  | f :: rest =>
    if truthy (pyGet (hook_read_yaml f) "active")
        && truthy (pyGet (hook_read_yaml f) "injection") then
      hook_read_yaml f :: load_active_strategies rest
    else load_active_strategies rest

/-- A loaded project as `_detect_project` sees it: its slug and its `repos`
entries (remote-URL or path fragments). -/
structure Project where
  slug : String
  repos : List String
deriving DecidableEq

/-- Whether some `repos` entry is a substring of the git remote URL. -/
def remote_match (url : String) (p : Project) : Bool :=
  p.repos.any (fun repo => strContains url repo)

/-- `repo.rstrip("/").split("/")[-1]`: the final path segment of a repo entry. -/
def lastSeg (repo : String) : String :=
  String.mk ((splitChar '/' (dropEndWhile (fun c => c == '/') repo).data).getLastD [])

/-- Whether some `repos` entry's final segment is non-empty and a substring of
the resolved working-directory string. -/
def path_match (resolvedStr : String) (p : Project) : Bool :=
  p.repos.any (fun repo =>
    !(lastSeg repo).data.isEmpty && strContains resolvedStr (lastSeg repo))

/-- `ProjectorHook._detect_project`.  `working_dir` is the raw argument;
`resolved` models `str(Path(working_dir).resolve())`; `projects` is the loaded
list in sorted (lexicographic slug) listing order; `remote` is the stripped
stdout of `git remote get-url origin` when that call exits zero, else `none`. -/
def detect_project (working_dir : String) (resolved : String)
    (projects : List Project) (remote : Option String) : Option Project :=
  if working_dir = "" then none
  else
    match remote with
    | some url =>
      match projects.find? (remote_match url) with
      | some p => some p
      | none => projects.find? (path_match resolved)
    | none => projects.find? (path_match resolved)

/-- One raw line of `outcomes.jsonl` as `_load_recent_outcomes` classifies it:
blank after stripping, unparsable JSON, or a parsed record. -/
inductive JLine where
  | blank
  | malformed
  | record (d : Dict)

/-- The parseable records of the log, in file (chronological) order. -/
def parsedEntries : List JLine → List Dict
  | [] => []
  | .record d :: rest => d :: parsedEntries rest
  | .blank :: rest => parsedEntries rest
  | .malformed :: rest => parsedEntries rest

/-- `ProjectorHook._load_recent_outcomes`: parse every line, then take the
Python slice `entries[-n:]` (note `entries[-0:]` is the whole list). -/
def load_recent_outcomes (lines : List JLine) (n : Nat) : List Dict :=
  let entries := parsedEntries lines
  if n = 0 then entries else entries.drop (entries.length - n)

/-- The last `n` elements of a list, in order (what "the tail of the log"
denotes). -/
def lastN (n : Nat) (l : List Dict) : List Dict := (l.reverse.take n).reverse

/-! ### hook.py: the "current project" block of `_build_context`

The fields the block consumes are the string-valued `name`/`slug`/
`description`/`notes` entries of the project mapping. -/

/-- Lookup in a string-valued mapping. -/
def getS : List (String × String) → String → Option String
  | [], _ => none
  | (k, v) :: rest, key => if k = key then some v else getS rest key

/-- `project.get("name", project.get("slug", "unknown"))`. -/
def projName (project : List (String × String)) : String :=
  match getS project "name" with
  | some v => v
  | none =>
    match getS project "slug" with
    | some v => v
    | none => "unknown"

/-- `project.get("description", "")`. -/
def projDesc (project : List (String × String)) : String :=
  match getS project "description" with
  | some v => v
  | none => ""

/-- `project.get("notes", "")`. -/
def projNotes (project : List (String × String)) : String :=
  match getS project "notes" with
  | some v => v
  | none => ""

/-- The `proj_lines` list `_build_context` assembles for a detected project:
a heading from `name` (falling back to `slug`, then `"unknown"`), then the
stripped description if truthy, then the stripped notes if truthy. -/
def project_block (project : List (String × String)) : List String :=
  let l1 := ["## Current Project: " ++ projName project, ""]
  let l2 :=
    if projDesc project ≠ "" then l1 ++ [pyStrip (projDesc project)] ++ [""] else l1
  let l3 :=
    if projNotes project ≠ "" then
      l2 ++ ["**Notes:** " ++ pyStrip (projNotes project)] ++ [""]
    else l2
  l3

/-- `"\n".join(lines)`. -/
def joinNL : List String → String
  | [] => ""
  | [s] => s
  | s :: rest => s ++ "\n" ++ joinNL rest

/-! ### hook.py: root-session filtering and the two event handlers -/

/-- What `self._coordinator` offers: absent, lacking the `parent_id`
attribute, or exposing a parent identifier (`none` for a root session). -/
inductive Coord where
  | noCoord
  | noAttr
  | parent (p : Option String)

/-- `ProjectorHook._is_root_session`. -/
def is_root_session (filt : String) (c : Coord) : Bool :=
  if filt ≠ "root_only" then true
  else
    match c with
    | .noCoord => true
    | .noAttr => true
    | .parent p => p.isNone

/-- A hook result: plain `continue`, or an ephemeral context injection. -/
inductive HAction where
  | cont
  | inject (text : String)

/-- `ProjectorHook.on_provider_request`.  `buildres` is what
`_build_context()` returns (already `""` if it raised); `cached` is
`self._cached_injection`.  Returns the result and the new cache. -/
def on_provider_request (filt : String) (c : Coord) (buildres : String)
    (cached : Option String) : HAction × Option String :=
  if is_root_session filt c = false then (.cont, cached)
  else
    let ctx := match cached with | some s => s | none => buildres
    if ctx = "" then (.cont, some ctx)
    else
      (.inject ("<system-reminder source=\"hooks-projector\">\n" ++ ctx
        ++ "\n</system-reminder>"),
       some ctx)

/-- `ProjectorHook.on_session_end`, observed through the project's outcome
log.  `record` is the outcome `_capture_outcome` would append (`none` when
detection fails or writing raises); the handler itself always continues. -/
def on_session_end (filt : String) (c : Coord) (record : Option Dict)
    (log : List Dict) : List Dict :=
  if is_root_session filt c = false then log
  else
    match record with
    | some r => log ++ [r]
    | none => log

/-! ### Supporting lemmas -/

theorem getVal_append (d e : Dict) (k : String) :
    getVal (d ++ e) k = match getVal d k with
      | some v => some v
      | none => getVal e k := by
  induction d with
  | nil => simp [getVal]
  | cons kv rest ih =>
    by_cases h : kv.1 = k
    · simp [getVal, h]
    · simp [getVal, h, ih]

theorem getVal_eq_none_of_not_any (d : Dict) (k : String)
    (h : d.any (fun p => p.1 = k) = false) : getVal d k = none := by
  induction d with
  | nil => simp [getVal]
  | cons kv rest ih =>
    simp only [List.any_cons, Bool.or_eq_false_iff] at h
    have h1 : kv.1 ≠ k := by
      intro hc
      simp [hc] at h
    simp [getVal, h1, ih h.2]

theorem getVal_setKey_self (d : Dict) (k : String) (v : YVal) :
    getVal (setKey d k v) k = some v := by
  induction d with
  | nil => simp [setKey, getVal]
  | cons kv rest ih =>
    obtain ⟨k1, v1⟩ := kv
    by_cases h1 : k1 = k
    · simp [setKey, h1, getVal]
    · simp [setKey, h1, getVal, ih]

theorem getVal_setKey_other (d : Dict) (k k' : String) (v : YVal) (h : k' ≠ k) :
    getVal (setKey d k v) k' = getVal d k' := by
  induction d with
  | nil => simp [setKey, getVal, Ne.symm h]
  | cons kv rest ih =>
    obtain ⟨k1, v1⟩ := kv
    by_cases h1 : k1 = k
    · rw [show setKey ((k1, v1) :: rest) k v = (k, v) :: rest from by simp [setKey, h1]]
      subst h1
      simp [getVal, Ne.symm h]
    · rw [show setKey ((k1, v1) :: rest) k v = (k1, v1) :: setKey rest k v from by
        simp [setKey, h1]]
      by_cases h2 : k1 = k'
      · simp [getVal, h2]
      · simp [getVal, h2, ih]

theorem getVal_applyUpdates_skipped (prot : String → Bool) (data : Dict)
    (d : Dict) (k : String)
    (h : ∀ kv ∈ data, kv.1 ≠ k ∨ prot kv.1 = true) :
    getVal (applyUpdates prot d data) k = getVal d k := by
  induction data generalizing d with
  | nil => rfl
  | cons kv rest ih =>
    unfold applyUpdates
    simp only [List.foldl_cons]
    by_cases hp : prot kv.1 = true
    · rw [if_pos hp]
      exact ih d (fun u hu => h u (List.mem_cons_of_mem kv hu))
    · rw [if_neg hp]
      have hk : kv.1 ≠ k := by
        rcases h kv (List.mem_cons_self kv rest) with hc | hc
        · exact hc
        · exact absurd hc hp
      rw [show List.foldl (fun acc kv => if prot kv.1 = true then acc
            else setKey acc kv.1 kv.2) (setKey d kv.1 kv.2) rest
          = applyUpdates prot (setKey d kv.1 kv.2) rest from rfl]
      rw [ih (setKey d kv.1 kv.2) (fun u hu => h u (List.mem_cons_of_mem kv hu))]
      exact getVal_setKey_other d kv.1 k kv.2 (fun hc => hk hc.symm)

theorem getVal_applyUpdates_applied (prot : String → Bool) (data : Dict)
    (d : Dict) (k : String) (v : YVal)
    (hmem : (k, v) ∈ data) (hnp : prot k = false)
    (hnd : (data.map Prod.fst).Nodup) :
    getVal (applyUpdates prot d data) k = some v := by
  induction data generalizing d with
  | nil => simp at hmem
  | cons kv rest ih =>
    unfold applyUpdates
    simp only [List.foldl_cons]
    rcases List.mem_cons.mp hmem with heq | hrest
    · subst heq
      rw [if_neg (by simp [hnp])]
      rw [show List.foldl (fun acc kv => if prot kv.1 = true then acc
            else setKey acc kv.1 kv.2) (setKey d k v) rest
          = applyUpdates prot (setKey d k v) rest from rfl]
      have hnotin : ∀ u ∈ rest, u.1 ≠ k := by
        intro u hu hc
        simp only [List.map_cons, List.nodup_cons] at hnd
        exact hnd.1 (hc ▸ List.mem_map_of_mem Prod.fst hu)
      rw [getVal_applyUpdates_skipped prot rest (setKey d k v) k
        (fun u hu => Or.inl (hnotin u hu))]
      exact getVal_setKey_self d k v
    · have hk1 : kv.1 ≠ k := by
        intro hc
        simp only [List.map_cons, List.nodup_cons] at hnd
        exact hnd.1 (hc ▸ List.mem_map_of_mem Prod.fst hrest)
      simp only [List.map_cons, List.nodup_cons] at hnd
      by_cases hp : prot kv.1 = true
      · rw [if_pos hp]
        exact ih d hrest hnd.2
      · rw [if_neg hp]
        exact ih (setKey d kv.1 kv.2) hrest hnd.2

theorem getVal_mergeExtras_of_some (base data : Dict) (k : String) (v : YVal)
    (h : getVal base k = some v) : getVal (mergeExtras base data) k = some v := by
  induction data generalizing base with
  | nil => exact h
  | cons kv rest ih =>
    unfold mergeExtras
    simp only [List.foldl_cons]
    by_cases ha : base.any (fun p => p.1 == kv.1) = true
    · rw [if_pos ha]
      exact ih base h
    · rw [if_neg ha]
      refine ih (base ++ [kv]) ?_
      rw [getVal_append, h]

theorem allDicts_map_dict (ts : List Dict) : allDicts (ts.map YVal.dict) = .ok ts := by
  induction ts with
  | nil => rfl
  | cons t rest ih => simp [allDicts, asDict, ih]

theorem foldl_parse_max (f : Dict → Option Nat) (l : List Dict) (a : Nat) :
    l.foldl (fun m t => match f t with | some n => max m n | none => m) a
      = max a ((l.filterMap f).foldr max 0) := by
  induction l generalizing a with
  | nil => simp
  | cons t ts ih =>
    cases h : f t with
    | none => simp [List.filterMap_cons, h, ih]
    | some n =>
      simp only [List.foldl_cons, List.filterMap_cons, h, List.foldr_cons]
      rw [ih]
      exact Nat.max_assoc a n _

theorem getS_filter_out (project : List (String × String)) (bad k : String)
    (hk : k ≠ bad) :
    getS (project.filter (fun kv => kv.1 ≠ bad)) k = getS project k := by
  induction project with
  | nil => rfl
  | cons kv rest ih =>
    obtain ⟨k1, v1⟩ := kv
    rw [List.filter_cons]
    by_cases ht : k1 = bad
    · rw [if_neg (by simp [ht])]
      rw [ih]
      have hne : k1 ≠ k := by rw [ht]; exact Ne.symm hk
      simp [getS, hne]
    · rw [if_pos (by simp [ht])]
      by_cases hkk : k1 = k
      · simp [getS, hkk]
      · simp only [getS, if_neg hkk]
        exact ih

theorem le_foldr_max (l : List Nat) (x : Nat) (h : x ∈ l) : x ≤ l.foldr max 0 := by
  induction l with
  | nil => simp at h
  | cons a t ih =>
    rcases List.mem_cons.mp h with rfl | ht
    · exact Nat.le_max_left x (t.foldr max 0)
    · exact Nat.le_trans (ih ht) (Nat.le_max_right a (t.foldr max 0))

/-- tool.py `_read_yaml` of a well-formed mapping file always yields that
mapping (an empty mapping is falsy, but `or {}` then gives `{}` back). -/
theorem tool_read_yaml_dict (d : Dict) :
    tool_read_yaml (.wellFormed (.dict d)) = .ok (.dict d) := by
  cases d with
  | nil => rfl
  | cons kv rest => simp [tool_read_yaml, truthy]

/-! ### Claim theorems -/

/-- C1: `_detect_project` returns `none` for an empty working directory;
otherwise, with a git remote URL obtained, it returns the first project (in
the sorted listing order of the scan) one of whose `repos` entries is a
substring of the remote URL — regardless of any path matches — and only when
no project remote-matches does it return the first project whose repo name
path-matches the resolved working directory; with no match at all it
returns `none`. -/
theorem detect_project_resolution (wd res : String) (ps : List Project)
    (remote : Option String) :
    (wd = "" → detect_project wd res ps remote = none)
  ∧ (∀ url, wd ≠ "" → remote = some url →
      ((∃ p ∈ ps, remote_match url p = true) →
        detect_project wd res ps remote = ps.find? (remote_match url))
      ∧ ((∀ p ∈ ps, remote_match url p = false) →
        detect_project wd res ps remote = ps.find? (path_match res)))
  ∧ (wd ≠ "" → remote = none →
      detect_project wd res ps remote = ps.find? (path_match res))
  ∧ (wd ≠ "" → (∀ p ∈ ps, path_match res p = false) →
      (∀ url, remote = some url → ∀ p ∈ ps, remote_match url p = false) →
      detect_project wd res ps remote = none) := by
  refine ⟨?_, ?_, ?_, ?_⟩
  · intro h
    simp [detect_project, h]
  · intro url hwd hr
    subst hr
    constructor
    · intro hex
      have hsome : (ps.find? (remote_match url)).isSome := by
        rw [List.find?_isSome]
        obtain ⟨p, hp, hm⟩ := hex
        exact ⟨p, hp, hm⟩
      cases hf : ps.find? (remote_match url) with
      | none => rw [hf] at hsome; simp at hsome
      | some q => simp [detect_project, hwd, hf]
    · intro hall
      have hf : ps.find? (remote_match url) = none := by
        rw [List.find?_eq_none]
        intro p hp
        simp [hall p hp]
      simp [detect_project, hwd, hf]
  · intro hwd hr
    subst hr
    simp [detect_project, hwd]
  · intro hwd hpath hrem
    have hfp : ps.find? (path_match res) = none := by
      rw [List.find?_eq_none]
      intro p hp
      simp [hpath p hp]
    cases hr : remote with
    | none => simp [detect_project, hwd, hfp]
    | some url =>
      have hfr : ps.find? (remote_match url) = none := by
        rw [List.find?_eq_none]
        intro p hp
        simp [hrem url hr p hp]
      simp [detect_project, hwd, hfr, hfp]

/-- C1 witness: project `alpha` remote-matches the git URL while a later
project `beta` path-matches the working directory, and detection returns
`alpha`. -/
theorem detect_project_resolution_witness :
    detect_project "/home/u/mydir" "/home/u/mydir"
      [Project.mk "alpha" ["github.com/acme/widget"],
       Project.mk "beta" ["tools/mydir"]]
      (some "https://github.com/acme/widget.git")
      = some (Project.mk "alpha" ["github.com/acme/widget"])
  ∧ path_match "/home/u/mydir" (Project.mk "beta" ["tools/mydir"]) = true := by
  constructor
  · have h := (detect_project_resolution "/home/u/mydir" "/home/u/mydir"
      [Project.mk "alpha" ["github.com/acme/widget"],
       Project.mk "beta" ["tools/mydir"]]
      (some "https://github.com/acme/widget.git")).2.1
      "https://github.com/acme/widget.git" (by decide) rfl
    have h2 := h.1 ⟨Project.mk "alpha" ["github.com/acme/widget"],
      List.mem_cons_self _ _, by decide⟩
    rw [h2]
    decide
  · decide

/-- C8: with `session_filter = root_only` and a non-empty parent identifier,
the session is not a root session, `on_provider_request` returns a plain
continue (leaving the cache untouched), and `on_session_end` appends nothing
to the outcome log — whatever context was built and whatever record was
available. -/
theorem root_only_filters_subagents (p : String) (_hp : p ≠ "")
    (buildres : String) (cached : Option String) (record : Option Dict)
    (log : List Dict) :
    is_root_session "root_only" (.parent (some p)) = false
  ∧ on_provider_request "root_only" (.parent (some p)) buildres cached
      = (.cont, cached)
  ∧ on_session_end "root_only" (.parent (some p)) record log = log := by
  have hroot : is_root_session "root_only" (.parent (some p)) = false := by
    simp [is_root_session]
  refine ⟨hroot, ?_, ?_⟩
  · simp [on_provider_request, hroot]
  · simp [on_session_end, hroot]

/-- C8 witness: a concrete sub-agent session with a resolvable build result
and an available record is skipped on both paths. -/
theorem root_only_filters_subagents_witness :
    is_root_session "root_only" (.parent (some "parent-123")) = false
  ∧ on_provider_request "root_only" (.parent (some "parent-123"))
      "## Current Project: alpha" none = (.cont, none)
  ∧ on_session_end "root_only" (.parent (some "parent-123"))
      (some [("summary", .str "did things")]) [] = [] :=
  root_only_filters_subagents "parent-123" (by decide)
    "## Current Project: alpha" none (some [("summary", .str "did things")]) []

/-- C10: a strategy file whose mapping lacks the `active` key is reported as
`active: true` by the tool's `list_strategies` and counted as active by
`get_status`, while the hook's context assembly treats it as inactive and
surfaces nothing. -/
theorem missing_active_key_defaults (d : Dict) (stem : String)
    (h : getVal d "active" = none) :
    getVal (strategyEntry stem d) "active" = some (.bool true)
  ∧ op_list_strategies ⟨[(stem, .wellFormed (.dict d))], []⟩
      = .success (.ok (.list [.dict (strategyEntry stem d)]))
  ∧ status_strategy_counts [(stem, .wellFormed (.dict d))] = .ok (1, 0)
  ∧ load_active_strategies [.wellFormed (.dict d)] = [] := by
  refine ⟨?_, ?_, ?_, ?_⟩
  · simp [strategyEntry, getVal, pyGetD, h]
  · simp [op_list_strategies, strategyEntries, tool_read_yaml_dict, asDict]
  · simp [status_strategy_counts, tool_read_yaml_dict, asDict, pyGetD, h, truthy]
  · simp [load_active_strategies, hook_read_yaml, pyGet, h, truthy]

/-- C10 witness: a concrete strategy file with an injection but no `active`
key splits the two components exactly this way. -/
theorem missing_active_key_defaults_witness :
    getVal (strategyEntry "focus" [("injection", .str "stay focused")]) "active"
      = some (.bool true)
  ∧ op_list_strategies
      ⟨[("focus", .wellFormed (.dict [("injection", .str "stay focused")]))], []⟩
      = .success (.ok (.list
          [.dict (strategyEntry "focus" [("injection", .str "stay focused")])]))
  ∧ status_strategy_counts
      [("focus", .wellFormed (.dict [("injection", .str "stay focused")]))]
      = .ok (1, 0)
  ∧ load_active_strategies
      [.wellFormed (.dict [("injection", .str "stay focused")])] = [] :=
  missing_active_key_defaults [("injection", .str "stay focused")] "focus" rfl

/-- C4 counterexample: the tool's `_read_yaml` raises on unparsable content
instead of returning an empty mapping, and `get_project` on a project whose
`project.yaml` is malformed surfaces that as an operation failure. -/
theorem tool_read_raises_on_malformed :
    tool_read_yaml .malformed = .error (.other "yaml parse error")
  ∧ tool_read_yaml .malformed ≠ .ok (.dict [])
  ∧ op_get_project ⟨[], [("proj", ⟨.malformed, .absent, []⟩)]⟩ "proj"
      = .failure "Unexpected error in get_project: yaml parse error" := by
  refine ⟨rfl, ?_, rfl⟩
  intro hc
  simp [tool_read_yaml] at hc

/-- C4 amended: the hook's `_read_yaml` returns an empty mapping on a missing
file, unparsable content, or a non-mapping top-level value, swallowing parse
errors; the tool's `_read_yaml` returns an empty mapping on a missing file or
a falsy top-level value, returns a truthy non-mapping value unchanged, and
raises on unparsable content. -/
theorem read_structured_split (v : YVal) (d : Dict) :
    hook_read_yaml .absent = []
  ∧ hook_read_yaml .malformed = []
  ∧ (isDictVal v = false → hook_read_yaml (.wellFormed v) = [])
  ∧ hook_read_yaml (.wellFormed (.dict d)) = d
  ∧ tool_read_yaml .absent = .ok (.dict [])
  ∧ tool_read_yaml .malformed = .error (.other "yaml parse error")
  ∧ (truthy v = true → tool_read_yaml (.wellFormed v) = .ok v)
  ∧ (truthy v = false → tool_read_yaml (.wellFormed v) = .ok (.dict [])) := by
  refine ⟨rfl, rfl, ?_, rfl, rfl, rfl, ?_, ?_⟩
  · intro h
    cases v <;> simp_all [hook_read_yaml, isDictVal]
  · intro h
    simp [tool_read_yaml, h]
  · intro h
    simp [tool_read_yaml, h]

/-- C4 witness: a truthy non-mapping top level (a one-element list) is `{}`
for the hook but passes through the tool's read unchanged. -/
theorem read_structured_split_witness :
    hook_read_yaml (.wellFormed (.list [.str "x"])) = []
  ∧ tool_read_yaml (.wellFormed (.list [.str "x"])) = .ok (.list [.str "x"]) :=
  ⟨(read_structured_split (.list [.str "x"]) []).2.2.1 rfl,
   (read_structured_split (.list [.str "x"]) []).2.2.2.2.2.2.1 rfl⟩

/-- C5 counterexample: with a configured limit of 0 the Python slice
`entries[-0:]` is the whole log, not the last zero records. -/
theorem load_recent_outcomes_zero_returns_all :
    load_recent_outcomes [JLine.record [("summary", .str "A")]] 0
      = [[("summary", .str "A")]]
  ∧ lastN 0 (parsedEntries [JLine.record [("summary", .str "A")]]) = [] :=
  ⟨rfl, rfl⟩

/-- C5 amended: for every positive configured limit `n`,
`_load_recent_outcomes` returns exactly the last `n` parseable records of the
log, in file (chronological) order. -/
theorem load_recent_outcomes_lastN (lines : List JLine) (n : Nat) (h : 0 < n) :
    load_recent_outcomes lines n = lastN n (parsedEntries lines) := by
  unfold load_recent_outcomes lastN
  rw [if_neg (Nat.pos_iff_ne_zero.mp h)]
  have hr := List.rtake_eq_reverse_take_reverse (parsedEntries lines) n
  unfold List.rtake at hr
  exact hr

/-- C5 witness: a log of records A, B, C (with a blank and an unparsable line
interleaved) read with limit 2 yields exactly B then C; a log of 8 records
read with the default limit 5 yields exactly the last 5, oldest first. -/
theorem load_recent_outcomes_lastN_witness :
    load_recent_outcomes
      [JLine.record [("summary", .str "A")], .blank,
       JLine.record [("summary", .str "B")], .malformed,
       JLine.record [("summary", .str "C")]] 2
      = lastN 2 (parsedEntries
          [JLine.record [("summary", .str "A")], .blank,
           JLine.record [("summary", .str "B")], .malformed,
           JLine.record [("summary", .str "C")]])
  ∧ load_recent_outcomes
      [JLine.record [("summary", .str "A")], .blank,
       JLine.record [("summary", .str "B")], .malformed,
       JLine.record [("summary", .str "C")]] 2
      = [[("summary", .str "B")], [("summary", .str "C")]]
  ∧ load_recent_outcomes
      [JLine.record [("n", .num 1)], JLine.record [("n", .num 2)],
       JLine.record [("n", .num 3)], JLine.record [("n", .num 4)],
       JLine.record [("n", .num 5)], JLine.record [("n", .num 6)],
       JLine.record [("n", .num 7)], JLine.record [("n", .num 8)]] 5
      = [[("n", .num 4)], [("n", .num 5)], [("n", .num 6)],
         [("n", .num 7)], [("n", .num 8)]] :=
  ⟨load_recent_outcomes_lastN
      [JLine.record [("summary", .str "A")], .blank,
       JLine.record [("summary", .str "B")], .malformed,
       JLine.record [("summary", .str "C")]] 2 (by decide),
   rfl, rfl⟩

/-- C7 counterexample: a strategy file whose `active` value is a truthy
non-boolean (the string "x") is surfaced by `_load_active_strategies` even
though its `active` field is not `true`. -/
theorem nonbool_active_strategy_surfaced :
    load_active_strategies
      [.wellFormed (.dict [("active", .str "x"), ("injection", .str "go")])]
      = [[("active", .str "x"), ("injection", .str "go")]]
  ∧ getVal [("active", YVal.str "x"), ("injection", YVal.str "go")] "active"
      ≠ some (.bool true) := by
  constructor
  · rfl
  · intro hc
    simp [getVal] at hc

/-- C7 amended: context assembly surfaces exactly the strategies whose
`active` value is truthy and whose `injection` value is truthy, in listing
order; in particular `active: false`, a missing `active`, and an empty or
missing `injection` are never surfaced. -/
theorem strategies_filtered_by_truthiness (files : List FileContent) :
    load_active_strategies files
      = (files.map hook_read_yaml).filter
          (fun d => truthy (pyGet d "active") && truthy (pyGet d "injection"))
  ∧ truthy (.bool false) = false
  ∧ truthy .null = false
  ∧ truthy (.str "") = false := by
  refine ⟨?_, rfl, rfl, rfl⟩
  induction files with
  | nil => rfl
  | cons f rest ih =>
    by_cases h : (truthy (pyGet (hook_read_yaml f) "active")
        && truthy (pyGet (hook_read_yaml f) "injection")) = true
    · simp [load_active_strategies, List.filter_cons, h, ih]
    · simp only [Bool.not_eq_true] at h
      simp [load_active_strategies, List.filter_cons, h, ih]

/-- C9 counterexample: the "current project" block renders the `name` field,
not the `title` field — a project titled `ZZTITLE` produces a block in which
that title never appears. -/
theorem title_not_rendered :
    getS [("name", "alpha"), ("title", "ZZTITLE")] "title" = some "ZZTITLE"
  ∧ strContains
      (joinNL (project_block [("name", "alpha"), ("title", "ZZTITLE")]))
      "ZZTITLE" = false := by
  exact ⟨rfl, by decide⟩

/-- C9 amended: the block is the heading with the project's `name` (falling
back to `slug`, then "unknown"), then the stripped description only when the
raw description is non-empty, then the stripped notes (with the `Notes`
label) only when the raw notes are non-empty; the `title` field plays no
role. -/
theorem project_block_shape (project : List (String × String)) :
    project_block project
      = ["## Current Project: " ++ projName project, ""]
        ++ (if projDesc project ≠ "" then [pyStrip (projDesc project), ""] else [])
        ++ (if projNotes project ≠ "" then
              ["**Notes:** " ++ pyStrip (projNotes project), ""]
            else [])
  ∧ project_block project
      = project_block (project.filter (fun kv => kv.1 ≠ "title")) := by
  constructor
  · unfold project_block
    by_cases h1 : projDesc project ≠ "" <;> by_cases h2 : projNotes project ≠ ""
      <;> simp [h1, h2]
  · unfold project_block projName projDesc projNotes
    rw [getS_filter_out project "title" "name" (by decide),
      getS_filter_out project "title" "slug" (by decide),
      getS_filter_out project "title" "description" (by decide),
      getS_filter_out project "title" "notes" (by decide)]

/-- C6 counterexample: an update payload that itself carries an `updated` key
does not survive — the handler overwrites `updated` with the current
timestamp after applying the payload, so not every non-protected payload key
is applied. -/
theorem update_payload_updated_key_lost :
    getVal (update_project_fields []
      [("updated", YVal.str "payload-value")] "now-value") "updated"
      = some (.str "now-value")
  ∧ getVal (update_project_fields []
      [("updated", YVal.str "payload-value")] "now-value") "updated"
      ≠ some (.str "payload-value") := by
  constructor
  · rfl
  · intro hc
    have h1 : some (YVal.str "now-value") = some (YVal.str "payload-value") := by
      calc some (YVal.str "now-value")
          = getVal (update_project_fields []
              [("updated", YVal.str "payload-value")] "now-value") "updated" := rfl
        _ = some (YVal.str "payload-value") := hc
    simp at h1

/-- C6 amended: `update_project` leaves `name` and `created` unchanged and
applies every other payload key except `updated`, which it always sets to the
current timestamp; `update_task` likewise protects `id` and `created` and
stamps `updated` — updates can never rename a project or reassign a task id. -/
theorem update_fields_protect (project task data : Dict) (now : String)
    (hnd : (data.map Prod.fst).Nodup) :
    getVal (update_project_fields project data now) "name" = getVal project "name"
  ∧ getVal (update_project_fields project data now) "created"
      = getVal project "created"
  ∧ getVal (update_project_fields project data now) "updated" = some (.str now)
  ∧ (∀ k v, (k, v) ∈ data → k ≠ "name" → k ≠ "created" → k ≠ "updated" →
      getVal (update_project_fields project data now) k = some v)
  ∧ getVal (update_task_fields task data now) "id" = getVal task "id"
  ∧ getVal (update_task_fields task data now) "created" = getVal task "created"
  ∧ getVal (update_task_fields task data now) "updated" = some (.str now)
  ∧ (∀ k v, (k, v) ∈ data → k ≠ "id" → k ≠ "created" → k ≠ "updated" →
      getVal (update_task_fields task data now) k = some v) := by
  refine ⟨?_, ?_, ?_, ?_, ?_, ?_, ?_, ?_⟩
  · rw [update_project_fields,
      getVal_setKey_other _ _ "name" _ (by decide)]
    exact getVal_applyUpdates_skipped _ data project "name" (fun kv _ => by
      by_cases hk : kv.1 = "name"
      · exact Or.inr (by simp [hk])
      · exact Or.inl hk)
  · rw [update_project_fields,
      getVal_setKey_other _ _ "created" _ (by decide)]
    exact getVal_applyUpdates_skipped _ data project "created" (fun kv _ => by
      by_cases hk : kv.1 = "created"
      · exact Or.inr (by simp [hk])
      · exact Or.inl hk)
  · rw [update_project_fields]
    exact getVal_setKey_self _ _ _
  · intro k v hmem hk1 hk2 hk3
    rw [update_project_fields, getVal_setKey_other _ _ k _ hk3]
    exact getVal_applyUpdates_applied _ data project k v hmem
      (by simp [hk1, hk2]) hnd
  · rw [update_task_fields,
      getVal_setKey_other _ _ "id" _ (by decide)]
    exact getVal_applyUpdates_skipped _ data task "id" (fun kv _ => by
      by_cases hk : kv.1 = "id"
      · exact Or.inr (by simp [hk])
      · exact Or.inl hk)
  · rw [update_task_fields,
      getVal_setKey_other _ _ "created" _ (by decide)]
    exact getVal_applyUpdates_skipped _ data task "created" (fun kv _ => by
      by_cases hk : kv.1 = "created"
      · exact Or.inr (by simp [hk])
      · exact Or.inl hk)
  · rw [update_task_fields]
    exact getVal_setKey_self _ _ _
  · intro k v hmem hk1 hk2 hk3
    rw [update_task_fields, getVal_setKey_other _ _ k _ hk3]
    exact getVal_applyUpdates_applied _ data task k v hmem
      (by simp [hk1, hk2]) hnd

/-- C6 witness: a concrete update of a project and a task leaves the
identity fields alone while applying a fresh payload key. -/
theorem update_fields_protect_witness :
    getVal (update_project_fields
      [("name", .str "alpha"), ("created", .str "t0"), ("status", .str "active")]
      [("status", .str "paused"), ("color", .str "red")] "t1") "name"
      = some (.str "alpha")
  ∧ getVal (update_project_fields
      [("name", .str "alpha"), ("created", .str "t0"), ("status", .str "active")]
      [("status", .str "paused"), ("color", .str "red")] "t1") "color"
      = some (.str "red")
  ∧ getVal (update_task_fields
      [("id", .str "A-001"), ("created", .str "t0")]
      [("status", .str "paused"), ("color", .str "red")] "t1") "id"
      = some (.str "A-001") := by
  have h := update_fields_protect
    [("name", .str "alpha"), ("created", .str "t0"), ("status", .str "active")]
    [("id", .str "A-001"), ("created", .str "t0")]
    [("status", .str "paused"), ("color", .str "red")] "t1" (by decide)
  refine ⟨h.1.trans (by rfl), ?_, h.2.2.2.2.1.trans (by rfl)⟩
  exact h.2.2.2.1 "color" (.str "red")
    (List.mem_cons_of_mem _ (List.mem_cons_self _ _))
    (by decide) (by decide) (by decide)

/-- C3: `add_task` assigns the id `PREFIX-NNN` where `NNN` is one more than
the maximum sequence number among existing ids matching the prefix,
zero-padded to three digits; the prefix comes deterministically from the
slug (initials of a multi-segment slug, else the first three characters,
uppercased); e.g. `[P-001, P-005]` is followed by `P-006` and
`my-big-project` yields `MBP`. -/
theorem add_task_sequential_ids (ts : List Dict) (pfx : String) (fs : FS)
    (arg slug : String) (data : Dict) (now : String)
    (h1 : safe_name arg = .ok slug)
    (h2 : fileExists (getProjDir fs slug).projectFile = true)
    (h3 : (getProjDir fs slug).tasksFile
        = .wellFormed (.dict [("tasks", .list (ts.map YVal.dict))]))
    (h4 : truthy (pyGetD data "title" .null) = true) :
    next_task_id ts pfx = pfx ++ "-" ++ pad3 (maxSeq ts pfx + 1)
  ∧ (∀ t ∈ ts, ∀ n, parseIdNum pfx (idStrOf t) = some n → n ≤ maxSeq ts pfx)
  ∧ project_prefix "my-big-project" = "MBP"
  ∧ next_task_id [[("id", .str "P-001")], [("id", .str "P-005")]] "P" = "P-006"
  ∧ op_add_task fs arg data now
      = (.success (.ok (.dict [("added",
          .dict (buildTask (next_task_id ts ( project_prefix slug)) data now))])),
        writeTasksFile fs slug
          (ts ++ [buildTask (next_task_id ts ( project_prefix slug)) data now]))
  ∧ getVal (buildTask (next_task_id ts ( project_prefix slug)) data now) "id"
      = some (.str (next_task_id ts ( project_prefix slug))) := by
  refine ⟨?_, ?_, by decide, by decide, ?_, ?_⟩
  · simp only [next_task_id, maxSeq]
    rw [foldl_parse_max]
    rw [Nat.zero_max]
  · intro t ht n hn
    exact le_foldr_max _ n (List.mem_filterMap.mpr ⟨t, ht, hn⟩)
  · have h4' : truthy ((getVal data "title").getD YVal.null) = true := h4
    simp only [op_add_task, h1, h2, readTasks, h3, tool_read_yaml_dict,
      asDict, asTaskList, pyGetD, getVal, allDicts_map_dict]
    simp [h4', allDicts_map_dict]
  · simp only [buildTask]
    exact getVal_mergeExtras_of_some _ data "id" _ rfl

/-- C3 witness: creating the first task of project `my-big-project` assigns
id `MBP-001` and appends it to the task file. -/
theorem add_task_sequential_ids_witness :
    op_add_task
      ⟨[], [("my-big-project",
        ⟨.wellFormed (.dict [("name", .str "my-big-project")]),
         .wellFormed (.dict [("tasks", .list [])]), []⟩)]⟩
      "my-big-project" [("title", .str "First task")] "t1"
      = (.success (.ok (.dict [("added",
          .dict (buildTask "MBP-001" [("title", .str "First task")] "t1"))])),
        writeTasksFile
          ⟨[], [("my-big-project",
            ⟨.wellFormed (.dict [("name", .str "my-big-project")]),
             .wellFormed (.dict [("tasks", .list [])]), []⟩)]⟩
          "my-big-project"
          [buildTask "MBP-001" [("title", .str "First task")] "t1"])
  ∧ getVal (buildTask "MBP-001" [("title", .str "First task")] "t1") "id"
      = some (.str "MBP-001") := by
  have h := add_task_sequential_ids [] "MBP"
    ⟨[], [("my-big-project",
      ⟨.wellFormed (.dict [("name", .str "my-big-project")]),
       .wellFormed (.dict [("tasks", .list [])]), []⟩)]⟩
    "my-big-project" "my-big-project" [("title", .str "First task")] "t1"
    (by rfl) (by rfl) (by rfl) (by rfl)
  exact ⟨h.2.2.2.2.1, h.2.2.2.2.2⟩

/-- `strContains` survives stripping when the pattern has no whitespace. -/
theorem strContains_pyStrip (name pat : String)
    (hne : pat.data ≠ []) (hws : ∀ c ∈ pat.data, c.isWhitespace = false)
    (h : strContains name pat = true) : strContains (pyStrip name) pat = true := by
  rw [strContains, occursIn_iff] at h
  rw [strContains, occursIn_iff]
  exact infix_stripList pat.data name.data hne hws h

/-- `_safe_name` raises a `ValueError` on every name containing `/`, `\` or
`..` and on every empty or whitespace-only name. -/
theorem safe_name_rejects (name : String)
    (h : strContains name "/" = true ∨ strContains name "\\" = true
      ∨ strContains name ".." = true ∨ pyStrip name = "") :
    ∃ m, safe_name name = .error (.valueError m) := by
  by_cases hs : pyStrip name = ""
  · exact ⟨"Name must not be empty", by simp [safe_name, hs]⟩
  · have hcond : (strContains (pyStrip name) ".." || strContains (pyStrip name) "/"
        || strContains (pyStrip name) "\\") = true := by
      rcases h with hc | hc | hc | hc
      · have hp := strContains_pyStrip name "/" (by decide) (by decide) hc
        simp [hp]
      · have hp := strContains_pyStrip name "\\" (by decide) (by decide) hc
        simp [hp]
      · have hp := strContains_pyStrip name ".." (by decide) (by decide) hc
        simp [hp]
      · exact absurd hc hs
    exact ⟨"Invalid name (path traversal rejected): " ++ pyStrip name,
      by simp [safe_name, hs, hcond]⟩

/-- C2 counterexample: `list_tasks` given an empty project name does not
reject it — Python treats the empty string as "no project filter" and the
operation succeeds (it is the one name-taking operation that skips
sanitization for the empty name). -/
theorem list_tasks_empty_name_succeeds :
    pyStrip "" = ""
  ∧ op_list_tasks ⟨[], []⟩ "" "" = .success (.ok (.list [])) :=
  ⟨rfl, rfl⟩

/-- C2 amended: for every name containing `/`, `\` or `..` and for every
empty or whitespace-only name, sanitization raises, so every tool operation
that takes a project or strategy name returns a caller-visible failure and
leaves the filesystem untouched — except `list_tasks`, which treats an empty
project name as "no filter" (for every other such name it too fails; it
never writes). -/
theorem bad_name_ops_reject (fs : FS) (name : String) (data : Dict)
    (now : String) (query : String)
    (h : strContains name "/" = true ∨ strContains name "\\" = true
      ∨ strContains name ".." = true ∨ pyStrip name = "") :
    (∃ m, op_get_project fs name = .failure m)
  ∧ (∃ m, op_create_project fs name data now = (.failure m, fs))
  ∧ (∃ m, op_update_project fs name data now = (.failure m, fs))
  ∧ (∃ m, op_get_strategy fs name = .failure m)
  ∧ (∃ m, op_set_strategy fs name data now = (.failure m, fs))
  ∧ (∃ m, op_toggle_strategy fs name now = (.failure m, fs))
  ∧ (∃ m, op_add_task fs name data now = (.failure m, fs))
  ∧ (∃ m, op_update_task fs name data now = (.failure m, fs))
  ∧ (name ≠ "" → ∃ m, op_list_tasks fs name query = .failure m)
  ∧ (∃ m, op_log_outcome fs name data now = (.failure m, fs)) := by
  obtain ⟨m, hm⟩ := safe_name_rejects name h
  refine ⟨⟨m, ?_⟩, ⟨m, ?_⟩, ⟨m, ?_⟩, ⟨m, ?_⟩, ⟨m, ?_⟩, ⟨m, ?_⟩, ⟨m, ?_⟩,
    ⟨m, ?_⟩, ?_, ⟨m, ?_⟩⟩
  · simp [op_get_project, hm, toFailure]
  · simp [op_create_project, hm, toFailure]
  · simp [op_update_project, hm, toFailure]
  · simp [op_get_strategy, hm, toFailure]
  · simp [op_set_strategy, hm, toFailure]
  · simp [op_toggle_strategy, hm, toFailure]
  · simp [op_add_task, hm, toFailure]
  · simp [op_update_task, hm, toFailure]
  · intro hne
    exact ⟨m, by simp [op_list_tasks, hne, hm, toFailure]⟩
  · simp [op_log_outcome, hm, toFailure]

/-- C2 witness: the traversal name `../etc` is rejected by every name-taking
operation with the filesystem unchanged. -/
theorem bad_name_ops_reject_witness :
    (∃ m, op_get_project ⟨[], []⟩ "../etc" = .failure m)
  ∧ (∃ m, op_create_project ⟨[], []⟩ "../etc" [] "t1" = (.failure m, ⟨[], []⟩))
  ∧ (∃ m, op_update_project ⟨[], []⟩ "../etc" [] "t1" = (.failure m, ⟨[], []⟩))
  ∧ (∃ m, op_get_strategy ⟨[], []⟩ "../etc" = .failure m)
  ∧ (∃ m, op_set_strategy ⟨[], []⟩ "../etc" [] "t1" = (.failure m, ⟨[], []⟩))
  ∧ (∃ m, op_toggle_strategy ⟨[], []⟩ "../etc" "t1" = (.failure m, ⟨[], []⟩))
  ∧ (∃ m, op_add_task ⟨[], []⟩ "../etc" [] "t1" = (.failure m, ⟨[], []⟩))
  ∧ (∃ m, op_update_task ⟨[], []⟩ "../etc" [] "t1" = (.failure m, ⟨[], []⟩))
  ∧ (∃ m, op_list_tasks ⟨[], []⟩ "../etc" "" = .failure m)
  ∧ (∃ m, op_log_outcome ⟨[], []⟩ "../etc" [] "t1" = (.failure m, ⟨[], []⟩))
  ∧ op_get_project ⟨[], []⟩ "../etc"
      = .failure "Invalid name (path traversal rejected): ../etc" := by
  have h := bad_name_ops_reject ⟨[], []⟩ "../etc" [] "t1" ""
    (Or.inr (Or.inr (Or.inl (by decide))))
  exact ⟨h.1, h.2.1, h.2.2.1, h.2.2.2.1, h.2.2.2.2.1, h.2.2.2.2.2.1,
    h.2.2.2.2.2.2.1, h.2.2.2.2.2.2.2.1,
    h.2.2.2.2.2.2.2.2.1 (by decide), h.2.2.2.2.2.2.2.2.2, rfl⟩

end Projector

